import Mathlib

/-!
Verification of the VDXConvert batch converter (`vdxconvert.py`).

The development shallowly embeds the pipeline core of the script:
`get_unique_filename`, `convert_vsd_to_vdx` (the external-process fallback
chain), `convert_vsdx_to_vdx` (the native XML builder), and `process_file`
(per-file dispatch, archival and result records), together with the batch
loop of `main`.

The filesystem is modelled as a finite list of existing paths; external
processes and the archival move are modelled by explicit outcome values
(an oracle), since their behaviour is outside the program.
-/

namespace VDXConvert

/-! ### Decimal numerals

`get_unique_filename` builds candidate names with a decimal counter
(`f"{name}_{counter}{ext}"`).  To reason about the probe we first prove
that Lean's `Nat.repr` (the embedding of Python's `str(counter)`) is
injective, by recovering the value from the digit string.
-/

/-- Fold a most-significant-first decimal digit string back to its value. -/
def decValFrom (a : Nat) (cs : List Char) : Nat :=
  cs.foldl (fun acc c => 10 * acc + (c.toNat - 48)) a

theorem decValFrom_append (a : Nat) (l₁ l₂ : List Char) :
    decValFrom a (l₁ ++ l₂) = decValFrom (decValFrom a l₁) l₂ := by
  simp [decValFrom, List.foldl_append]

theorem digitChar_toNat (d : Nat) (h : d < 10) : (Nat.digitChar d).toNat = 48 + d := by
  interval_cases d <;> rfl

theorem toDigitsCore_succ (b f n : Nat) (l : List Char) :
    Nat.toDigitsCore b (f + 1) n l =
      if n / b = 0 then Nat.digitChar (n % b) :: l
      else Nat.toDigitsCore b f (n / b) (Nat.digitChar (n % b) :: l) := rfl

theorem toDigitsCore_shift (b : Nat) :
    ∀ (f n : Nat) (l : List Char),
      Nat.toDigitsCore b f n l = Nat.toDigitsCore b f n [] ++ l := by
  intro f
  induction f with
  | zero => intro n l; simp [Nat.toDigitsCore]
  | succ f ih =>
    intro n l
    by_cases h : n / b = 0
    · rw [toDigitsCore_succ, toDigitsCore_succ, if_pos h, if_pos h]
      simp
    · rw [toDigitsCore_succ, toDigitsCore_succ, if_neg h, if_neg h,
        ih (n / b) (Nat.digitChar (n % b) :: l),
        ih (n / b) (Nat.digitChar (n % b) :: []), List.append_assoc]
      simp

theorem decVal_toDigitsCore :
    ∀ (f n : Nat), n ≤ f →
      decValFrom 0 (Nat.toDigitsCore 10 (f + 1) n []) = n := by
  intro f
  induction f with
  | zero =>
    intro n hn
    interval_cases n
    simp only [Nat.toDigitsCore, Nat.zero_div, if_pos rfl, decValFrom,
      List.foldl_cons, List.foldl_nil]
    decide
  | succ f ih =>
    intro n hn
    by_cases h : n / 10 = 0
    · rw [toDigitsCore_succ, if_pos h]
      have hmod : n % 10 = n := by omega
      simp only [decValFrom, List.foldl_cons, List.foldl_nil]
      rw [hmod, digitChar_toNat n (by omega)]
      omega
    · have hlt : n / 10 < n := Nat.div_lt_self (by omega) (by omega)
      have hle : n / 10 ≤ f := by omega
      rw [toDigitsCore_succ, if_neg h, toDigitsCore_shift, decValFrom_append, ih (n / 10) hle]
      have hm : n % 10 < 10 := Nat.mod_lt _ (by omega)
      simp only [decValFrom, List.foldl_cons, List.foldl_nil]
      rw [digitChar_toNat (n % 10) hm]
      omega

theorem decVal_repr (n : Nat) : decValFrom 0 (Nat.repr n).data = n := by
  have : (Nat.repr n).data = Nat.toDigitsCore 10 (n + 1) n [] := rfl
  rw [this]
  exact decVal_toDigitsCore n n le_rfl

theorem Nat_repr_injective : Function.Injective Nat.repr := by
  intro m n h
  have : decValFrom 0 (Nat.repr m).data = decValFrom 0 (Nat.repr n).data := by rw [h]
  rwa [decVal_repr, decVal_repr] at this

/-! ### Path manipulation (`os.path` on POSIX) -/

/-- Index of the last occurrence of `c` in `cs` (Python's `str.rfind`,
`none` standing for `-1`). -/
def lastIdxOf (c : Char) (cs : List Char) : Option Nat :=
  ((List.range cs.length).filter fun i => cs.getD i c == c).getLast?

/-- Drop trailing `/` characters (Python's `rstrip('/')`). -/
def rstripSlashes (cs : List Char) : List Char :=
  (cs.reverse.dropWhile (· == '/')).reverse

/-- `os.path.split`: split a path at the last `/`; the head keeps no
trailing slashes unless it consists only of slashes. -/
def ospSplit (p : String) : String × String :=
  let cs := p.data
  let i : Nat := match lastIdxOf '/' cs with
    | none => 0
    | some k => k + 1
  let head := cs.take i
  let tail := cs.drop i
  let head' := if head ≠ [] ∧ ¬ (head.all (· == '/') = true) then rstripSlashes head else head
  (head'.asString, tail.asString)

/-- `os.path.basename`. -/
def basename (p : String) : String := (ospSplit p).2

/-- `os.path.join` for two components (POSIX). -/
def ospJoin (a b : String) : String :=
  if b.data.head? = some '/' then b
  else if a = "" ∨ a.data.getLast? = some '/' then a ++ b
  else a ++ "/" ++ b

/-- `os.path.splitext`: split off the extension at the last dot of the
final component, unless every character of the component before that dot
is itself a dot. -/
def splitext (p : String) : String × String :=
  let cs := p.data
  let s0 : Nat := match lastIdxOf '/' cs with
    | none => 0
    | some k => k + 1
  match lastIdxOf '.' cs with
  | none => (p, "")
  | some d =>
    if s0 ≤ d ∧ ((List.range' s0 (d - s0)).any fun j => ¬ (cs.getD j '.' == '.') = true) then
      ((cs.take d).asString, (cs.drop d).asString)
    else (p, "")

/-! ### The filesystem model

The set of existing paths is a finite list of strings, fixed for the
duration of a probe (the source runs single-threaded). -/

/-- `os.path.exists` over the modelled filesystem. -/
def pathExists (fs : List String) (p : String) : Bool := fs.contains p

/-- The candidate `os.path.join(directory, f"\x7bname\x7d_\x7bcounter\x7d\x7bext\x7d")`
built by `get_unique_filename`'s loop. -/
def uniqueCandidate (directory name ext : String) (counter : Nat) : String :=
  ospJoin directory (name ++ "_" ++ Nat.repr counter ++ ext)

theorem str_append_left_cancel (a x y : String) (h : a ++ x = a ++ y) : x = y := by
  have hd := congrArg String.data h
  simp only [String.data_append] at hd
  exact String.ext (List.append_cancel_left hd)

theorem str_append_right_cancel (x y a : String) (h : x ++ a = y ++ a) : x = y := by
  have hd := congrArg String.data h
  simp only [String.data_append] at hd
  exact String.ext (List.append_cancel_right hd)

theorem repr_affix_cancel (pre post : String) (j k : Nat)
    (h : pre ++ Nat.repr j ++ post = pre ++ Nat.repr k ++ post) : j = k := by
  have h1 : Nat.repr j ++ post = Nat.repr k ++ post := by
    apply str_append_left_cancel pre
    rw [← String.append_assoc, ← String.append_assoc]
    exact h
  have h2 : Nat.repr j = Nat.repr k := str_append_right_cancel _ _ _ h1
  have h3 : decValFrom 0 (Nat.repr j).data = decValFrom 0 (Nat.repr k).data := by rw [h2]
  rwa [decVal_repr, decVal_repr] at h3

theorem candTail_head (n e : String) (x : Nat) :
    (n ++ "_" ++ Nat.repr x ++ e).data.head? = (n.data ++ ['_']).head? := by
  have : (n ++ "_" ++ Nat.repr x ++ e).data
      = n.data ++ ['_'] ++ ((Nat.repr x).data ++ e.data) := by
    simp [String.data_append, List.append_assoc]
  rw [this]
  rcases hn : n.data with _ | ⟨c, cs⟩ <;> simp

theorem uniqueCandidate_injective (d n e : String) :
    Function.Injective (uniqueCandidate d n e) := by
  intro j k h
  unfold uniqueCandidate ospJoin at h
  apply repr_affix_cancel (n ++ "_") e
  by_cases hb : (n ++ "_" ++ Nat.repr j ++ e).data.head? = some '/'
  · have hb' : (n ++ "_" ++ Nat.repr k ++ e).data.head? = some '/' := by
      rw [candTail_head] at hb ⊢; exact hb
    rwa [if_pos hb, if_pos hb'] at h
  · have hb' : ¬ (n ++ "_" ++ Nat.repr k ++ e).data.head? = some '/' := by
      rw [candTail_head] at hb ⊢; exact hb
    rw [if_neg hb, if_neg hb'] at h
    by_cases hd : d = "" ∨ d.data.getLast? = some '/'
    · rw [if_pos hd, if_pos hd] at h
      exact str_append_left_cancel d _ _ h
    · rw [if_neg hd, if_neg hd] at h
      exact str_append_left_cancel (d ++ "/") _ _ h

theorem pathExists_iff_mem (fs : List String) (p : String) :
    pathExists fs p = true ↔ p ∈ fs := by
  simp [pathExists, List.contains, List.elem_iff]

/-- Pigeonhole: among the first `fs.length + 1` candidate names (counters
`1, 2, …`) at least one is unused, because distinct counters give distinct
paths and only `fs.length` paths exist. -/
theorem exists_unused (fs : List String) (d n e : String) :
    ∃ j, j < fs.length + 1 ∧ pathExists fs (uniqueCandidate d n e (1 + j)) = false := by
  by_contra hcon
  push_neg at hcon
  have hmem : ∀ j : Fin (fs.length + 1), uniqueCandidate d n e (1 + (j : Nat)) ∈ fs := by
    intro j
    have hj := hcon (j : Nat) j.isLt
    have : pathExists fs (uniqueCandidate d n e (1 + (j : Nat))) = true := by
      cases hx : pathExists fs (uniqueCandidate d n e (1 + (j : Nat)))
      · exact absurd hx hj
      · rfl
    exact (pathExists_iff_mem fs _).mp this
  have hinj : Function.Injective
      (fun j : Fin (fs.length + 1) => uniqueCandidate d n e (1 + (j : Nat))) := by
    intro a b hab
    have := uniqueCandidate_injective d n e hab
    have : (a : Nat) = (b : Nat) := by omega
    exact Fin.ext this
  have hcard : (Finset.univ : Finset (Fin (fs.length + 1))).card ≤ fs.toFinset.card :=
    Finset.card_le_card_of_injOn
      (fun j : Fin (fs.length + 1) => uniqueCandidate d n e (1 + (j : Nat)))
      (fun a _ => List.mem_toFinset.mpr (hmem a)) hinj.injOn
  have huniv : (Finset.univ : Finset (Fin (fs.length + 1))).card = fs.length + 1 := by
    simp
  have hle := fs.toFinset_card_le
  omega

/-- The `while True:` probe of `get_unique_filename`, embedded with explicit
fuel.  `exists_unused` shows fuel `fs.length + 1` always suffices, so the
fueled function computes the same answer as the unbounded source loop. -/
def probeUnique (fs : List String) (directory name ext : String) : Nat → Nat → String
  | 0, counter => uniqueCandidate directory name ext counter
  | fuel + 1, counter =>
    if pathExists fs (uniqueCandidate directory name ext counter) = true then
      probeUnique fs directory name ext fuel (counter + 1)
    else uniqueCandidate directory name ext counter

/-- `get_unique_filename` (vdxconvert.py, lines 191–204): return the path
unchanged if unused, otherwise probe `name_1`, `name_2`, … before the
extension until an unused path is found. -/
def get_unique_filename (fs : List String) (filepath : String) : String :=
  if pathExists fs filepath = false then filepath
  else
    let directory := (ospSplit filepath).1
    let filename := (ospSplit filepath).2
    let name := (splitext filename).1
    let ext := (splitext filename).2
    probeUnique fs directory name ext (fs.length + 1) 1

theorem probeUnique_spec (fs : List String) (d n e : String) :
    ∀ (fuel start : Nat),
      (∃ j, j < fuel ∧ pathExists fs (uniqueCandidate d n e (start + j)) = false) →
      ∃ j, j < fuel ∧
        probeUnique fs d n e fuel start = uniqueCandidate d n e (start + j) ∧
        pathExists fs (uniqueCandidate d n e (start + j)) = false ∧
        ∀ i, i < j → pathExists fs (uniqueCandidate d n e (start + i)) = true := by
  intro fuel
  induction fuel with
  | zero =>
    intro start h
    rcases h with ⟨j, hj, _⟩
    omega
  | succ fuel ih =>
    intro start h
    by_cases hc : pathExists fs (uniqueCandidate d n e start) = true
    · have h' : ∃ j, j < fuel ∧
          pathExists fs (uniqueCandidate d n e (start + 1 + j)) = false := by
        rcases h with ⟨j, hj, hfree⟩
        rcases j with _ | j
        · rw [Nat.add_zero] at hfree
          rw [hfree] at hc
          cases hc
        · exact ⟨j, by omega, by rw [show start + 1 + j = start + (j + 1) by omega]; exact hfree⟩
      rcases ih (start + 1) h' with ⟨j, hj, heq, hfree, hmin⟩
      refine ⟨j + 1, by omega, ?_, ?_, ?_⟩
      · rw [probeUnique, if_pos hc, show start + (j + 1) = start + 1 + j by omega]
        exact heq
      · rw [show start + (j + 1) = start + 1 + j by omega]
        exact hfree
      · intro i hi
        rcases i with _ | i
        · simpa using hc
        · have := hmin i (by omega)
          rw [show start + (i + 1) = start + 1 + i by omega]
          exact this
    · have hcf : pathExists fs (uniqueCandidate d n e start) = false := by
        simpa using hc
      refine ⟨0, by omega, ?_, ?_, ?_⟩
      · rw [probeUnique, if_neg hc, Nat.add_zero]
      · simpa using hcf
      · intro i hi
        omega

/-! ### External-process conversion (`convert_vsd_to_vdx`, lines 273–354)

Each backend invocation (`subprocess.run` with `check=True`) either raises
before running to completion (`err`: `FileNotFoundError` or another
`SubprocessError`) or runs, yielding an exit code and possibly depositing
the same-basename `.vdx` artifact in the scratch directory.  A non-zero
exit code makes `check=True` raise `CalledProcessError` after the process
ran, so a non-zero-exit run may still have deposited the artifact. -/

inductive ProcOutcome
  | err
  | ran (exitCode : Nat) (deposited : Bool)
deriving DecidableEq

/-- The attempt ran with exit code 0 and deposited the artifact: the only
case in which the first backend's `os.path.exists` check is reached and
succeeds. -/
def ProcOutcome.yields : ProcOutcome → Bool
  | .ran 0 true => true
  | _ => false

/-- Whether the attempt deposited the expected artifact in the scratch
directory, regardless of its exit status. -/
def ProcOutcome.depositedArtifact : ProcOutcome → Bool
  | .err => false
  | .ran _ d => d

/-- The attempt ran to completion with exit code 0 (so `check=True` did not
raise). -/
def ProcOutcome.zeroExit : ProcOutcome → Bool
  | .ran 0 _ => true
  | _ => false

structure VsdTrace where
  success : Bool
  triedUnoconv : Bool
  triedLibreOffice : Bool
  tempDirExistsAfter : Bool
  /-- `os.makedirs(temp_dir, exist_ok=True)` runs before any invocation. -/
  tempDirCreated : Bool := true
deriving DecidableEq

/-- `convert_vsd_to_vdx` (lines 273–354): try `unoconv` into a scratch
directory; on any `SubprocessError`/`FileNotFoundError` or a missing
artifact, fall back to LibreOffice; check for the artifact only after a
zero-exit run; the `finally` block attempts to remove the scratch
directory, swallowing any removal failure (`except: pass`).  The
`shutil.copy2` to the destination is assumed to succeed (its failure is
outside the claims). -/
def convert_vsd_to_vdx (uno lo : ProcOutcome) (rmtreeFails : Bool) : VsdTrace :=
  match uno with
  | .ran 0 true =>
    { success := true, triedUnoconv := true, triedLibreOffice := false,
      tempDirExistsAfter := rmtreeFails }
  | u =>
    match lo with
    | .err =>
      { success := false, triedUnoconv := true, triedLibreOffice := true,
        tempDirExistsAfter := rmtreeFails }
    | .ran 0 d =>
      { success := d || u.depositedArtifact, triedUnoconv := true, triedLibreOffice := true,
        tempDirExistsAfter := rmtreeFails }
    | .ran (_ + 1) _ =>
      { success := false, triedUnoconv := true, triedLibreOffice := true,
        tempDirExistsAfter := rmtreeFails }

/-! ### Native conversion (`convert_vsdx_to_vdx`, lines 207–271)

The `vsdx` library hands the script a document handle: a list of pages,
each with a name, width, height (their `str()` images) and a list of
shapes; a shape exposes an optional name and optional position/size
fields (`hasattr` checks in the source). -/

structure PyShape where
  name : Option String
  pos : Option (String × String)
  size : Option (String × String)

structure PyPage where
  name : String
  width : String
  height : String
  shapes : List PyShape

/-- A node of the emitted XML: tag, attributes in insertion order, optional
text content, children in insertion order (`xml.etree.ElementTree`). -/
structure XElem where
  tag : String
  attrs : List (String × String)
  text : Option String
  children : List XElem

/-- The shape name emitted at 1-indexed position `shapeId`: Python's
`shape.name if shape.name else f"Shape_\x7bshape_id\x7d"` treats both a missing
name and an empty string as falsy. -/
def shapeName (shapeId : Nat) (nm : Option String) : String :=
  match nm with
  | some s => if s = "" then "Shape_" ++ Nat.repr shapeId else s
  | none => "Shape_" ++ Nat.repr shapeId

/-- Children of the `ShapeProperties` element: position fields only when
the shape has `x` and `y`, size fields only when it has `width` and
`height` (the `hasattr` guards at lines 251–261). -/
def shapeProps (s : PyShape) : List XElem :=
  (match s.pos with
   | some (x, y) => [⟨"PosX", [], some x, []⟩, ⟨"PosY", [], some y, []⟩]
   | none => []) ++
  (match s.size with
   | some (w, h) => [⟨"Width", [], some w, []⟩, ⟨"Height", [], some h, []⟩]
   | none => [])

def shapeElem (shapeId : Nat) (s : PyShape) : XElem :=
  { tag := "Shape",
    attrs := [("ID", Nat.repr shapeId), ("Name", shapeName shapeId s.name)],
    text := none,
    children := [⟨"ShapeProperties", [], none, shapeProps s⟩] }

/-- `for shape_id, shape in enumerate(page.shapes, 1)`. -/
def shapeElems (shapeId : Nat) : List PyShape → List XElem
  | [] => []
  | s :: ss => shapeElem shapeId s :: shapeElems (shapeId + 1) ss

def pageElem (idx : Nat) (p : PyPage) : XElem :=
  { tag := "Page",
    attrs := [("ID", Nat.repr idx), ("Name", p.name)],
    text := none,
    children :=
      [⟨"PageProperties", [], none,
        [⟨"PageWidth", [], some p.width, []⟩, ⟨"PageHeight", [], some p.height, []⟩]⟩,
       ⟨"Shapes", [], none, shapeElems 1 p.shapes⟩] }

/-- `for idx, page in enumerate(drawing.pages, 1)`. -/
def pageElems (idx : Nat) : List PyPage → List XElem
  | [] => []
  | p :: ps => pageElem idx p :: pageElems (idx + 1) ps

/-- The VDX document `convert_vsdx_to_vdx` builds and writes for
`input_file` when the drawing handle enumerates `pages`. -/
def vsdxDocument (input_file : String) (pages : List PyPage) : XElem :=
  { tag := "VisioDocument",
    attrs := [("xmlns", "http://schemas.microsoft.com/visio/2003/core")],
    text := none,
    children :=
      [⟨"DocumentProperties", [], none,
        [⟨"Title", [], some (basename input_file), []⟩,
         ⟨"Creator", [], some "VDXConvert", []⟩]⟩,
       ⟨"Pages", [], none, pageElems 1 pages⟩] }

/-! ### Per-file processing (`process_file`, lines 356–428) -/

def OUTPUT_DIR : String := "output"
def ARCHIVE_DIR : String := "archive"

/-- Python's `str.lower` on the characters of `s` (`ext.lower()`, line 360). -/
def strToLower (s : String) : String := (s.data.map Char.toLower).asString

/-- Message of the `ImportError` raised at lines 209–210. -/
def importErrorMsg : String := "vsdx library is required for processing .vsdx files"

def isVsdxFamily (ext : String) : Bool := ext == ".vsdx" || ext == ".vsdm"

def isVsdFamily (ext : String) : Bool := ext == ".vsd" || ext == ".vdw"

/-- One per-file record of the batch report (the wall-clock `time` field of
the Python dict is not modelled). -/
structure ConversionResult where
  filename : String
  output : Option String
  archive : Option String
  success : Bool
  error : Option String
deriving DecidableEq

/-- Behaviour of the external world during one `process_file` call:
the body of the native conversion (its `try` block, which catches its own
exceptions and returns a `bool`), the two external-process attempts, the
scratch-directory removal, and the archival `shutil.move` (whose failure
carries the exception text `str(e)`). -/
structure Oracle where
  vsdxOk : Bool
  uno : ProcOutcome
  lo : ProcOutcome
  rmtreeFails : Bool
  move : Except String Unit

/-- The boolean `success` computed by the dispatch of `process_file`
(lines 374–389), assuming the `ImportError` branch was not hit. -/
def conversionSucceeded (vsdx_support vsd_support : Bool) (ext : String) (o : Oracle) : Bool :=
  if isVsdxFamily ext then vsdx_support && o.vsdxOk
  else if isVsdFamily ext then
    vsd_support && (convert_vsd_to_vdx o.uno o.lo o.rmtreeFails).success
  else false

/-- Observables of one `process_file` call: the returned record, whether a
conversion backend was invoked, whether the `ImportError` branch of
`convert_vsdx_to_vdx` fired, whether the converted output exists in the
output directory afterwards, and the two collision-probed destination
paths. -/
structure ProcessTrace where
  result : ConversionResult
  attempted : Bool
  raisedImportError : Bool
  outputWritten : Bool
  outputFile : String
  archiveFile : String

/-- `process_file` (lines 356–428).  `fs` is the set of existing paths when
the call starts, `libPresent` the module-level `VSDX_SUPPORT` flag, and
`vsdx_support` / `vsd_support` the capability flags passed by `main`. -/
def process_file (fs : List String) (libPresent vsdx_support vsd_support : Bool)
    (input_file : String) (o : Oracle) : ProcessTrace :=
  let filename := basename input_file
  let base_name := (splitext filename).1
  let ext := strToLower (splitext filename).2
  let output_file := get_unique_filename fs (ospJoin OUTPUT_DIR (base_name ++ ".vdx"))
  let archive_file := get_unique_filename fs (ospJoin ARCHIVE_DIR filename)
  let attempted := (isVsdxFamily ext && vsdx_support) || (isVsdFamily ext && vsd_support)
  if isVsdxFamily ext && vsdx_support && !libPresent then
    { result := { filename := filename, output := none, archive := none,
                  success := false, error := some importErrorMsg },
      attempted := true, raisedImportError := true, outputWritten := false,
      outputFile := output_file, archiveFile := archive_file }
  else
    let success := conversionSucceeded vsdx_support vsd_support ext o
    if success then
      match o.move with
      | .ok _ =>
        { result := { filename := filename, output := some (basename output_file),
                      archive := some (basename archive_file), success := true, error := none },
          attempted := attempted, raisedImportError := false, outputWritten := true,
          outputFile := output_file, archiveFile := archive_file }
      | .error m =>
        { result := { filename := filename, output := none, archive := none,
                      success := false, error := some m },
          attempted := attempted, raisedImportError := false, outputWritten := true,
          outputFile := output_file, archiveFile := archive_file }
    else
      { result := { filename := filename, output := none, archive := none,
                    success := false, error := some "Conversion process failed" },
        attempted := attempted, raisedImportError := false, outputWritten := false,
        outputFile := output_file, archiveFile := archive_file }

/-- The accumulation loop of `main` (lines 535–544): one `process_file`
call and one appended record per discovered file. -/
def runBatch (fs : List String) (libPresent vsdx_support vsd_support : Bool)
    (oracleOf : String → Oracle) (files : List String) : List ConversionResult :=
  files.map fun f => (process_file fs libPresent vsdx_support vsd_support f (oracleOf f)).result

/-! ### Substring search (for claims about error-message wording) -/

def containsSub (needle hay : String) : Bool :=
  (List.range (hay.data.length + 1)).any fun i => needle.data.isPrefixOf (hay.data.drop i)

/-- Whether an error description mentions backend unavailability, in the
wording of the script's log messages ("not available") or of the spec
("unavailable"). -/
def mentionsBackendUnavailability (s : String) : Bool :=
  containsSub "unavailab" s || containsSub "not available" s

/-- Lookup of an XML attribute by name. -/
def attrOf (e : XElem) (k : String) : Option String :=
  (e.attrs.find? fun p => p.1 == k).map (·.2)

/-! ### Concrete instances used to exercise the theorems -/

def exampleShapes : List PyShape :=
  [{ name := some "Rect", pos := some ("1.0", "2.0"), size := some ("3.0", "4.0") },
   { name := none, pos := none, size := none },
   { name := some "", pos := some ("0.5", "0.5"), size := none }]

def examplePage1 : PyPage :=
  { name := "Page-1", width := "8.5", height := "11.0", shapes := exampleShapes }

def examplePage2 : PyPage :=
  { name := "Page-2", width := "8.5", height := "11.0", shapes := [] }

def examplePages : List PyPage := [examplePage1, examplePage2]

/-- An oracle for a run in which everything succeeds. -/
def okOracle : Oracle :=
  { vsdxOk := true, uno := .ran 0 true, lo := .err, rmtreeFails := false, move := .ok () }

/-- An oracle for a run in which conversion succeeds but `shutil.move`
raises. -/
def moveFailOracle : Oracle :=
  { vsdxOk := true, uno := .ran 0 true, lo := .err, rmtreeFails := false,
    move := .error "Permission denied" }

/-! ## Supporting lemmas -/

theorem vsdxFamily_not_vsdFamily (ext : String) :
    isVsdxFamily ext = true → isVsdFamily ext = false := by
  intro h
  simp only [isVsdxFamily, Bool.or_eq_true, beq_iff_eq] at h
  rcases h with h | h <;> subst h <;> decide

theorem vsdFamily_not_vsdxFamily (ext : String) :
    isVsdFamily ext = true → isVsdxFamily ext = false := by
  intro h
  simp only [isVsdFamily, Bool.or_eq_true, beq_iff_eq] at h
  rcases h with h | h <;> subst h <;> decide

theorem pageElems_length (k : Nat) (ps : List PyPage) :
    (pageElems k ps).length = ps.length := by
  induction ps generalizing k with
  | nil => rfl
  | cons p ps ih => simp [pageElems, ih]

theorem pageElems_getElem? (k : Nat) (ps : List PyPage) (i : Nat) :
    (pageElems k ps)[i]? = (ps[i]?).map fun p => pageElem (k + i) p := by
  induction ps generalizing k i with
  | nil => simp [pageElems]
  | cons p ps ih =>
    cases i with
    | zero => simp [pageElems]
    | succ i =>
      have hk : k + 1 + i = k + (i + 1) := by omega
      simp [pageElems, ih (k + 1) i, hk]

theorem shapeElems_length (k : Nat) (ss : List PyShape) :
    (shapeElems k ss).length = ss.length := by
  induction ss generalizing k with
  | nil => rfl
  | cons s ss ih => simp [shapeElems, ih]

theorem shapeElems_getElem? (k : Nat) (ss : List PyShape) (j : Nat) :
    (shapeElems k ss)[j]? = (ss[j]?).map fun s => shapeElem (k + j) s := by
  induction ss generalizing k j with
  | nil => simp [shapeElems]
  | cons s ss ih =>
    cases j with
    | zero => simp [shapeElems]
    | succ j =>
      have hk : k + 1 + j = k + (j + 1) := by omega
      simp [shapeElems, ih (k + 1) j, hk]

/-! ## The claims -/

/-- C1: every `ConversionResult` returned by `process_file` satisfies the
mutual-exclusivity invariant: when the success flag is true the output and
archive filenames are non-null and the error is null; when it is false the
output and archive are null and the error is non-null. -/
theorem c1_result_mutual_exclusivity (fs : List String)
    (libPresent vsdx_support vsd_support : Bool) (input_file : String) (o : Oracle) :
    ((process_file fs libPresent vsdx_support vsd_support input_file o).result.output.isSome &&
     (process_file fs libPresent vsdx_support vsd_support input_file o).result.archive.isSome &&
     (process_file fs libPresent vsdx_support vsd_support input_file o).result.error.isNone)
      = (process_file fs libPresent vsdx_support vsd_support input_file o).result.success ∧
    ((process_file fs libPresent vsdx_support vsd_support input_file o).result.output.isNone &&
     (process_file fs libPresent vsdx_support vsd_support input_file o).result.archive.isNone &&
     (process_file fs libPresent vsdx_support vsd_support input_file o).result.error.isSome)
      = !(process_file fs libPresent vsdx_support vsd_support input_file o).result.success := by
  rcases o with ⟨v, uno, lo, rm, mv⟩
  unfold process_file
  dsimp only
  split_ifs <;> cases mv <;> simp

/-- C2 counterexample: LibreOffice deposits the artifact but exits
non-zero, so `check=True` raises and `convert_vsd_to_vdx` returns `False`
without ever checking for the artifact — the conversion does not "return
true exactly when some attempted backend deposits the output artifact". -/
theorem c2_counterexample :
    (convert_vsd_to_vdx ProcOutcome.err (ProcOutcome.ran 1 true) false).triedLibreOffice = true ∧
    (ProcOutcome.ran 1 true).depositedArtifact = true ∧
    (convert_vsd_to_vdx ProcOutcome.err (ProcOutcome.ran 1 true) false).success = false := by
  decide

/-- C2 (amended): unoconv is always attempted; LibreOffice is attempted
exactly when unoconv did not run with exit 0 and deposit the artifact; the
conversion succeeds exactly when unoconv yields the artifact with a zero
exit, or LibreOffice runs with exit 0 and the artifact is then present in
the scratch directory (deposited by either backend).  In particular a zero
exit with no output file is a failure for that backend, and failure of
backend 1 never prevents backend 2 from being tried; but an artifact
deposited by a run that exits non-zero is only discovered if a later
zero-exit run reaches the existence check. -/
theorem c2_fallback_chain (uno lo : ProcOutcome) (rmtreeFails : Bool) :
    (convert_vsd_to_vdx uno lo rmtreeFails).triedUnoconv = true ∧
    (convert_vsd_to_vdx uno lo rmtreeFails).triedLibreOffice = !uno.yields ∧
    (convert_vsd_to_vdx uno lo rmtreeFails).success =
      (uno.yields || (lo.zeroExit && (lo.depositedArtifact || uno.depositedArtifact))) := by
  rcases uno with _ | ⟨(_ | eu), (_ | _)⟩ <;>
    first
      | exact ⟨rfl, rfl, rfl⟩
      | (rcases lo with _ | ⟨(_ | el), (_ | _)⟩ <;> exact ⟨rfl, rfl, rfl⟩)

/-- C6: the batch loop records exactly one `ConversionResult` per
discovered input file — `process_file` is total on every input, so no
per-file outcome aborts the batch or goes unrecorded. -/
theorem c6_one_result_per_file (fs : List String)
    (libPresent vsdx_support vsd_support : Bool)
    (oracleOf : String → Oracle) (files : List String) :
    (runBatch fs libPresent vsdx_support vsd_support oracleOf files).length = files.length := by
  simp [runBatch]

/-- C8 counterexample: when the `shutil.rmtree` in the `finally` block
itself fails, the failure is swallowed by `except: pass` and the scratch
directory survives the call — removal is not guaranteed on every exit
path. -/
theorem c8_counterexample :
    (convert_vsd_to_vdx ProcOutcome.err ProcOutcome.err true).tempDirExistsAfter = true := by
  decide

/-- C8 (amended): the scratch directory is created before use and its
removal is attempted in a `finally` block on every exit path; the
directory is gone afterwards exactly when that removal operation itself
succeeds (a removal failure is silently ignored and leaves it behind). -/
theorem c8_scratch_cleanup (uno lo : ProcOutcome) (rmtreeFails : Bool) :
    (convert_vsd_to_vdx uno lo rmtreeFails).tempDirCreated = true ∧
    (convert_vsd_to_vdx uno lo rmtreeFails).tempDirExistsAfter = rmtreeFails := by
  rcases uno with _ | ⟨(_ | eu), (_ | _)⟩ <;>
    first
      | exact ⟨rfl, rfl⟩
      | (rcases lo with _ | ⟨(_ | el), (_ | _)⟩ <;> exact ⟨rfl, rfl⟩)

/-- C3 counterexample: a `.vsd` file with no external backend available is
indeed never attempted and fails, but the error field of the returned
record is the generic "Conversion process failed" — backend unavailability
is mentioned only in the log, not in the result's error description. -/
theorem c3_counterexample :
    (process_file [] true true false "input/b.vsd" okOracle).attempted = false ∧
    (process_file [] true true false "input/b.vsd" okOracle).result.success = false ∧
    (process_file [] true true false "input/b.vsd" okOracle).result.error
      = some "Conversion process failed" ∧
    mentionsBackendUnavailability "Conversion process failed" = false := by
  decide

/-- C3 (amended): for an input whose extension class has no available
backend, `process_file` makes no conversion attempt and returns a failure
result; its error description is the generic "Conversion process failed"
(the unavailability reason appears only in the log message). -/
theorem c3_no_backend_no_attempt (fs : List String)
    (libPresent vsdx_support vsd_support : Bool) (input_file : String) (o : Oracle)
    (hfam : (isVsdxFamily (strToLower (splitext (basename input_file)).2) = true
              ∧ vsdx_support = false)
          ∨ (isVsdFamily (strToLower (splitext (basename input_file)).2) = true
              ∧ vsd_support = false)) :
    (process_file fs libPresent vsdx_support vsd_support input_file o).attempted = false ∧
    (process_file fs libPresent vsdx_support vsd_support input_file o).result.success = false ∧
    (process_file fs libPresent vsdx_support vsd_support input_file o).result.error
      = some "Conversion process failed" := by
  rcases o with ⟨v, uno, lo, rm, mv⟩
  unfold process_file
  dsimp only
  rcases hfam with ⟨hx, hvx⟩ | ⟨hv, hvs⟩
  · have hvd := vsdxFamily_not_vsdFamily _ hx
    rw [if_neg (by simp [hvx])]
    rw [if_neg (by simp [conversionSucceeded, hx, hvx])]
    subst hvx
    simp [hx, hvd]
  · have hvd := vsdFamily_not_vsdxFamily _ hv
    rw [if_neg (by simp [hvd])]
    rw [if_neg (by simp [conversionSucceeded, hv, hvd, hvs])]
    subst hvs
    simp [hv, hvd]

/-- C3 witness: the amended claim at the concrete scenario of the spec
(`b.vsd` with no external backend). -/
theorem c3_no_backend_no_attempt_witness :
    (process_file [] true true false "input/b.vsd" okOracle).attempted = false ∧
    (process_file [] true true false "input/b.vsd" okOracle).result.success = false ∧
    (process_file [] true true false "input/b.vsd" okOracle).result.error
      = some "Conversion process failed" :=
  c3_no_backend_no_attempt [] true true false "input/b.vsd" okOracle
    (Or.inr ⟨by decide, rfl⟩)

/-- C7: when the conversion itself succeeds but the archival
`shutil.move` raises, `process_file` still produces a result record for
the file, reporting the move failure as the file's processing error,
while the converted output remains in the output directory. -/
theorem c7_archival_failure (fs : List String)
    (libPresent vsdx_support vsd_support : Bool) (input_file : String) (o : Oracle) (m : String)
    (hnoraise : (isVsdxFamily (strToLower (splitext (basename input_file)).2) && vsdx_support
        && !libPresent) = false)
    (hconv : conversionSucceeded vsdx_support vsd_support
        (strToLower (splitext (basename input_file)).2) o = true)
    (hmove : o.move = Except.error m) :
    (process_file fs libPresent vsdx_support vsd_support input_file o).result.success = false ∧
    (process_file fs libPresent vsdx_support vsd_support input_file o).result.error = some m ∧
    (process_file fs libPresent vsdx_support vsd_support input_file o).result.filename
      = basename input_file ∧
    (process_file fs libPresent vsdx_support vsd_support input_file o).outputWritten = true := by
  unfold process_file
  dsimp only
  rw [if_neg (by simp [hnoraise]), if_pos hconv, hmove]
  exact ⟨rfl, rfl, rfl, rfl⟩

/-- C7 witness: a concrete successful conversion whose archival move
fails with "Permission denied". -/
theorem c7_archival_failure_witness :
    (process_file [] true true true "input/a.vsdx" moveFailOracle).result.success = false ∧
    (process_file [] true true true "input/a.vsdx" moveFailOracle).result.error
      = some "Permission denied" ∧
    (process_file [] true true true "input/a.vsdx" moveFailOracle).result.filename = "a.vsdx" ∧
    (process_file [] true true true "input/a.vsdx" moveFailOracle).outputWritten = true :=
  c7_archival_failure [] true true true "input/a.vsdx" moveFailOracle "Permission denied"
    (by decide) (by decide) rfl

/-- C9: if the `vsdx_support` flag handed to `process_file` is true only
when the `vsdx` module was actually imported (as `check_dependencies`
guarantees, returning the module-level `VSDX_SUPPORT`), the
`ImportError`-raising branch of `convert_vsdx_to_vdx` is unreachable. -/
theorem c9_import_branch_unreachable (fs : List String)
    (libPresent vsdx_support vsd_support : Bool) (input_file : String) (o : Oracle)
    (h : vsdx_support = true → libPresent = true) :
    (process_file fs libPresent vsdx_support vsd_support input_file o).raisedImportError
      = false := by
  rcases o with ⟨v, uno, lo, rm, mv⟩
  unfold process_file
  dsimp only
  rw [if_neg]
  · split_ifs <;> cases mv <;> rfl
  · intro hc
    simp only [Bool.and_eq_true, Bool.not_eq_true'] at hc
    rw [h hc.1.2] at hc
    cases hc.2

/-- C9 witness: a `.vsdx` input processed with the library present. -/
theorem c9_import_branch_unreachable_witness :
    (process_file [] true true true "input/a.vsdx" okOracle).raisedImportError = false :=
  c9_import_branch_unreachable [] true true true "input/a.vsdx" okOracle (fun _ => rfl)

/-- C4: `get_unique_filename` returns an unused destination unchanged;
for a used one it inserts the smallest numeric suffix `_k` (k = 1, 2, …)
before the extension that gives an unused path; and `process_file`
applies the probe separately to the output path and the archive path. -/
theorem c4_unique_filename (fs : List String) (filepath : String)
    (libPresent vsdx_support vsd_support : Bool) (input_file : String) (o : Oracle) :
    (pathExists fs filepath = false → get_unique_filename fs filepath = filepath) ∧
    (pathExists fs filepath = true →
      ∃ k, 1 ≤ k ∧
        get_unique_filename fs filepath
          = uniqueCandidate (ospSplit filepath).1 (splitext (ospSplit filepath).2).1
              (splitext (ospSplit filepath).2).2 k ∧
        pathExists fs
          (uniqueCandidate (ospSplit filepath).1 (splitext (ospSplit filepath).2).1
              (splitext (ospSplit filepath).2).2 k) = false ∧
        ∀ j, 1 ≤ j → j < k →
          pathExists fs
            (uniqueCandidate (ospSplit filepath).1 (splitext (ospSplit filepath).2).1
                (splitext (ospSplit filepath).2).2 j) = true) ∧
    (process_file fs libPresent vsdx_support vsd_support input_file o).outputFile
      = get_unique_filename fs
          (ospJoin OUTPUT_DIR ((splitext (basename input_file)).1 ++ ".vdx")) ∧
    (process_file fs libPresent vsdx_support vsd_support input_file o).archiveFile
      = get_unique_filename fs (ospJoin ARCHIVE_DIR (basename input_file)) := by
  refine ⟨?_, ?_, ?_, ?_⟩
  · intro h
    unfold get_unique_filename
    rw [if_pos h]
  · intro h
    unfold get_unique_filename
    rw [if_neg (by simp [h])]
    dsimp only
    obtain ⟨j, hj, heq, hfree, hmin⟩ :=
      probeUnique_spec fs (ospSplit filepath).1 (splitext (ospSplit filepath).2).1
        (splitext (ospSplit filepath).2).2 (fs.length + 1) 1
        (exists_unused fs (ospSplit filepath).1 (splitext (ospSplit filepath).2).1
          (splitext (ospSplit filepath).2).2)
    refine ⟨1 + j, by omega, heq, hfree, ?_⟩
    intro i h1 hik
    have hm := hmin (i - 1) (by omega)
    rwa [show 1 + (i - 1) = i by omega] at hm
  · rcases o with ⟨v, uno, lo, rm, mv⟩
    unfold process_file
    dsimp only
    split_ifs <;> cases mv <;> rfl
  · rcases o with ⟨v, uno, lo, rm, mv⟩
    unfold process_file
    dsimp only
    split_ifs <;> cases mv <;> rfl

/-- C4 witness: with `foo.vdx` present the probe yields `foo_1.vdx`, and
with both present it yields `foo_2.vdx`. -/
theorem c4_unique_filename_witness :
    (∃ k, 1 ≤ k ∧
      get_unique_filename ["output/foo.vdx", "output/foo_1.vdx"] "output/foo.vdx"
        = uniqueCandidate (ospSplit "output/foo.vdx").1
            (splitext (ospSplit "output/foo.vdx").2).1
            (splitext (ospSplit "output/foo.vdx").2).2 k ∧
      pathExists ["output/foo.vdx", "output/foo_1.vdx"]
        (uniqueCandidate (ospSplit "output/foo.vdx").1
            (splitext (ospSplit "output/foo.vdx").2).1
            (splitext (ospSplit "output/foo.vdx").2).2 k) = false ∧
      ∀ j, 1 ≤ j → j < k →
        pathExists ["output/foo.vdx", "output/foo_1.vdx"]
          (uniqueCandidate (ospSplit "output/foo.vdx").1
              (splitext (ospSplit "output/foo.vdx").2).1
              (splitext (ospSplit "output/foo.vdx").2).2 j) = true) ∧
    get_unique_filename ["output/foo.vdx"] "output/foo.vdx" = "output/foo_1.vdx" ∧
    get_unique_filename ["output/foo.vdx", "output/foo_1.vdx"] "output/foo.vdx"
      = "output/foo_2.vdx" :=
  ⟨(c4_unique_filename ["output/foo.vdx", "output/foo_1.vdx"] "output/foo.vdx"
      true true true "input/x.vsd" okOracle).2.1 (by decide),
   by decide, by decide⟩

/-- C10: under the modelled finite, unmodified filesystem the probing loop
of `get_unique_filename` terminates — the fueled loop stabilizes once the
fuel reaches `fs.length + 1` — and the returned path is one at which no
file exists. -/
theorem c10_probe_terminates (fs : List String) (filepath : String) :
    pathExists fs (get_unique_filename fs filepath) = false ∧
    ∀ fuel, fs.length + 1 ≤ fuel →
      probeUnique fs (ospSplit filepath).1 (splitext (ospSplit filepath).2).1
          (splitext (ospSplit filepath).2).2 fuel 1
        = probeUnique fs (ospSplit filepath).1 (splitext (ospSplit filepath).2).1
          (splitext (ospSplit filepath).2).2 (fs.length + 1) 1 := by
  constructor
  · cases h : pathExists fs filepath with
    | false =>
      unfold get_unique_filename
      rw [if_pos h]
      exact h
    | true =>
      unfold get_unique_filename
      rw [if_neg (by simp [h])]
      dsimp only
      obtain ⟨j, hj, heq, hfree, hmin⟩ :=
        probeUnique_spec fs (ospSplit filepath).1 (splitext (ospSplit filepath).2).1
          (splitext (ospSplit filepath).2).2 (fs.length + 1) 1
          (exists_unused fs (ospSplit filepath).1 (splitext (ospSplit filepath).2).1
            (splitext (ospSplit filepath).2).2)
      rw [heq]
      exact hfree
  · intro fuel hfuel
    obtain ⟨j₁, hj₁, heq₁, hfree₁, hmin₁⟩ :=
      probeUnique_spec fs (ospSplit filepath).1 (splitext (ospSplit filepath).2).1
        (splitext (ospSplit filepath).2).2 fuel 1
        (by
          obtain ⟨j, hj, hfree⟩ :=
            exists_unused fs (ospSplit filepath).1 (splitext (ospSplit filepath).2).1
              (splitext (ospSplit filepath).2).2
          exact ⟨j, by omega, hfree⟩)
    obtain ⟨j₂, hj₂, heq₂, hfree₂, hmin₂⟩ :=
      probeUnique_spec fs (ospSplit filepath).1 (splitext (ospSplit filepath).2).1
        (splitext (ospSplit filepath).2).2 (fs.length + 1) 1
        (exists_unused fs (ospSplit filepath).1 (splitext (ospSplit filepath).2).1
          (splitext (ospSplit filepath).2).2)
    have hjj : j₁ = j₂ := by
      rcases Nat.lt_trichotomy j₁ j₂ with hlt | heqj | hgt
      · have := hmin₂ j₁ hlt
        rw [this] at hfree₁
        cases hfree₁
      · exact heqj
      · have := hmin₁ j₂ hgt
        rw [this] at hfree₂
        cases hfree₂
    rw [heq₁, heq₂, hjj]

/-- C10 witness: the loop stabilizes and the returned path is unused on a
concrete one-file filesystem. -/
theorem c10_probe_terminates_witness :
    pathExists ["output/foo.vdx"]
      (get_unique_filename ["output/foo.vdx"] "output/foo.vdx") = false ∧
    probeUnique ["output/foo.vdx"] (ospSplit "output/foo.vdx").1
        (splitext (ospSplit "output/foo.vdx").2).1
        (splitext (ospSplit "output/foo.vdx").2).2 5 1
      = probeUnique ["output/foo.vdx"] (ospSplit "output/foo.vdx").1
        (splitext (ospSplit "output/foo.vdx").2).1
        (splitext (ospSplit "output/foo.vdx").2).2 2 1 :=
  ⟨(c10_probe_terminates ["output/foo.vdx"] "output/foo.vdx").1,
   (c10_probe_terminates ["output/foo.vdx"] "output/foo.vdx").2 5 (by decide)⟩

/-- C5: the native backend emits a document-properties block (title = the
source filename, creator = the tool name) followed by one page element per
source page (identifier, name, width, height) with one shape element per
source shape; page and shape identifiers are assigned sequentially from 1;
a shape lacking a name gets the synthesized `Shape_<n>` at its 1-indexed
position; and position/size fields appear only when the source shape
exposes them. -/
theorem c5_native_document_structure (input_file : String) (pages : List PyPage) :
    (vsdxDocument input_file pages).tag = "VisioDocument" ∧
    (vsdxDocument input_file pages).children =
      [⟨"DocumentProperties", [], none,
        [⟨"Title", [], some (basename input_file), []⟩,
         ⟨"Creator", [], some "VDXConvert", []⟩]⟩,
       ⟨"Pages", [], none, pageElems 1 pages⟩] ∧
    (pageElems 1 pages).length = pages.length ∧
    (∀ i p, pages[i]? = some p → (pageElems 1 pages)[i]? = some (pageElem (i + 1) p)) ∧
    (∀ (i : Nat) (p : PyPage),
      attrOf (pageElem i p) "ID" = some (Nat.repr i) ∧
      attrOf (pageElem i p) "Name" = some p.name ∧
      (pageElem i p).children =
        [⟨"PageProperties", [], none,
          [⟨"PageWidth", [], some p.width, []⟩, ⟨"PageHeight", [], some p.height, []⟩]⟩,
         ⟨"Shapes", [], none, shapeElems 1 p.shapes⟩]) ∧
    (∀ (shapes : List PyShape), (shapeElems 1 shapes).length = shapes.length ∧
      ∀ j s, shapes[j]? = some s → (shapeElems 1 shapes)[j]? = some (shapeElem (j + 1) s)) ∧
    (∀ (j : Nat) (s : PyShape),
      attrOf (shapeElem j s) "ID" = some (Nat.repr j) ∧
      attrOf (shapeElem j s) "Name" = some (shapeName j s.name) ∧
      (s.name = none → shapeName j s.name = "Shape_" ++ Nat.repr j) ∧
      (∀ nm, s.name = some nm → nm ≠ "" → shapeName j s.name = nm) ∧
      (shapeElem j s).children = [⟨"ShapeProperties", [], none, shapeProps s⟩]) ∧
    (∀ s : PyShape,
      (∀ x y, s.pos = some (x, y) →
        XElem.mk "PosX" [] (some x) [] ∈ shapeProps s ∧
        XElem.mk "PosY" [] (some y) [] ∈ shapeProps s) ∧
      (s.pos = none → ∀ el ∈ shapeProps s, el.tag ≠ "PosX" ∧ el.tag ≠ "PosY") ∧
      (∀ w h, s.size = some (w, h) →
        XElem.mk "Width" [] (some w) [] ∈ shapeProps s ∧
        XElem.mk "Height" [] (some h) [] ∈ shapeProps s) ∧
      (s.size = none → ∀ el ∈ shapeProps s, el.tag ≠ "Width" ∧ el.tag ≠ "Height")) := by
  refine ⟨rfl, rfl, pageElems_length 1 pages, ?_, ?_, ?_, ?_, ?_⟩
  · intro i p h
    rw [pageElems_getElem? 1 pages i, h, Nat.add_comm 1 i]
    rfl
  · intro i p
    exact ⟨rfl, rfl, rfl⟩
  · intro shapes
    refine ⟨shapeElems_length 1 shapes, ?_⟩
    intro j s h
    rw [shapeElems_getElem? 1 shapes j, h, Nat.add_comm 1 j]
    rfl
  · intro j s
    refine ⟨rfl, rfl, ?_, ?_, rfl⟩
    · intro h
      simp [shapeName, h]
    · intro nm h hne
      simp [shapeName, h, hne]
  · intro s
    refine ⟨?_, ?_, ?_, ?_⟩
    · intro x y h
      rcases hs : s.size with _ | ⟨w, hgt⟩ <;> simp [shapeProps, h, hs]
    · intro h el hel
      rcases hs : s.size with _ | ⟨w, hgt⟩ <;>
        simp [shapeProps, h, hs] at hel <;>
        rcases hel with rfl | rfl <;> exact ⟨by simp, by simp⟩
    · intro w hgt h
      rcases hp : s.pos with _ | ⟨x, y⟩ <;> simp [shapeProps, h, hp]
    · intro h el hel
      rcases hp : s.pos with _ | ⟨x, y⟩ <;>
        simp [shapeProps, h, hp] at hel <;>
        rcases hel with rfl | rfl <;> exact ⟨by simp, by simp⟩

/-- C5 witness: a synthetic handle with 2 pages carrying 3 and 0 shapes —
the emitted document has exactly 2 page elements with shape counts 3 and
0, and the unnamed second shape gets the synthesized name `Shape_2`. -/
theorem c5_native_document_structure_witness :
    (pageElems 1 examplePages).length = 2 ∧
    (pageElems 1 examplePages)[0]? = some (pageElem 1 examplePage1) ∧
    (pageElems 1 examplePages)[1]? = some (pageElem 2 examplePage2) ∧
    (shapeElems 1 examplePage1.shapes).length = 3 ∧
    (shapeElems 1 examplePage2.shapes).length = 0 ∧
    attrOf (shapeElem 2 { name := none, pos := none, size := none }) "Name"
      = some "Shape_2" :=
  ⟨(c5_native_document_structure "input/a.vsdx" examplePages).2.2.1,
   (c5_native_document_structure "input/a.vsdx" examplePages).2.2.2.1 0 examplePage1 rfl,
   (c5_native_document_structure "input/a.vsdx" examplePages).2.2.2.1 1 examplePage2 rfl,
   (c5_native_document_structure "input/a.vsdx" examplePages).2.2.2.2.2.1
     examplePage1.shapes |>.1,
   (c5_native_document_structure "input/a.vsdx" examplePages).2.2.2.2.2.1
     examplePage2.shapes |>.1,
   by rfl⟩

end VDXConvert
